import Mathlib

/-!
Verification of the MaaGF1 watchdog module (`src/agent/action/watchdog.py`).

The development shallowly embeds the two cores of the module:

* the notification fallback router `Watchdog._send_notification`, modelled by
  `buildTryOrder` / `trySendLoop` / `send_notification` over an abstract set of
  channel identifiers, a per-channel notifier-availability predicate and a
  per-channel send oracle that may succeed, fail, or raise (`Except`);
* the watchdog state machine (`feed`, `poll`, `notify`, `manual_stop` and the
  internal helpers `_internal_start`, `_internal_stop`, `_update_timeout`),
  modelled by pure functions over `WatchdogState` with the current time passed
  explicitly (milliseconds as `Int`).  Message formatting is abstracted to the
  structured type `WMessage` which records exactly the data each source f-string
  interpolates; the full router is abstracted in `notify` to a boolean oracle,
  matching the fact that `_send_notification` touches none of the state fields.

`Reachable` is the set of states reachable from the freshly constructed
instance by any sequence of the four public operations.
-/

namespace MaaGF1

/-- Result of one `notifier.send_message` call: `Except.ok b` is a normal
return of boolean `b`, `Except.error e` is a raised exception. -/
abbrev SendResult := Except String Bool

/-- Try-order construction of `_send_notification` (lines 66-74): the default
platform first when it is truthy and available, then every available platform
not already in the list, in enumeration order. -/
def buildTryOrder (dflt : Option String) (available : List String) : List String :=
  let t0 : List String :=
    match dflt with
    | some d => if d ≠ "" ∧ d ∈ available then [d] else []
    | none => []
  available.foldl (fun acc p => if p ∈ acc then acc else acc ++ [p]) t0

/-- Prepend a platform to the attempted-channel trace of a dispatch result. -/
def prependAttempt (p : String) : Except String (Bool × List String) → Except String (Bool × List String)
  | Except.ok (b, as) => Except.ok (b, p :: as)
  | Except.error e => Except.error e

/-- The dispatch loop of `_send_notification` (lines 79-104).  Returns the
overall boolean together with the list of platforms whose `send_message` was
actually invoked; a raised exception from a send attempt is caught by the
`except` clause and the loop continues with the next platform. -/
def trySendLoop (hasNotifier : String → Bool) (send : String → SendResult) :
    List String → Except String (Bool × List String)
  | [] => Except.ok (false, [])
  | p :: rest =>
    if p = "telegram" then
      if hasNotifier p then
        match send p with
        | Except.ok true => Except.ok (true, [p])
        | Except.ok false => prependAttempt p (trySendLoop hasNotifier send rest)
        | Except.error _ => prependAttempt p (trySendLoop hasNotifier send rest)
      else trySendLoop hasNotifier send rest
    else if p = "wechat" then
      if hasNotifier p then
        match send p with
        | Except.ok true => Except.ok (true, [p])
        | Except.ok false => prependAttempt p (trySendLoop hasNotifier send rest)
        | Except.error _ => prependAttempt p (trySendLoop hasNotifier send rest)
      else trySendLoop hasNotifier send rest
    else trySendLoop hasNotifier send rest

/-- `Watchdog._send_notification` (lines 52-104): early `false` when no
platform is available, otherwise the dispatch loop over the try order. -/
def send_notification (dflt : Option String) (available : List String)
    (hasNotifier : String → Bool) (send : String → SendResult) :
    Except String (Bool × List String) :=
  if available = [] then Except.ok (false, [])
  else trySendLoop hasNotifier send (buildTryOrder dflt available)

/-- The mutable fields of a `Watchdog` instance (lines 25-29). -/
structure WatchdogState where
  is_running : Bool
  is_timeout_occurred : Bool
  timeout_ms : Int
  last_feed_time : Option Int
  start_info : String
deriving Repr, DecidableEq

/-- State established by `Watchdog.__init__` (lines 23-31). -/
def initState : WatchdogState :=
  { is_running := false
    is_timeout_occurred := false
    timeout_ms := 0
    last_feed_time := none
    start_info := "" }

/-- The data interpolated into each notification message the watchdog builds;
string formatting itself is diagnostic only and abstracted away. -/
inductive WMessage where
  | autoStarted (timeout_ms : Int) (info : String) (time : Int)
  | autoStopped (reason : String) (time : Int)
  | timeoutUpdated (old_timeout new_timeout : Int) (info : String) (time : Int)
  | timeoutAlert (start_info : String) (threshold : Int) (elapsed : Option Int)
      (last_feed : Option Int) (alert_time : Int)
deriving Repr, DecidableEq

/-- `Watchdog._internal_start` (lines 106-123).  Returns the python return
value, the new state, and the messages handed to `_send_notification`. -/
def internal_start (s : WatchdogState) (now : Int) (tm : Int) (info : String) :
    Bool × WatchdogState × List WMessage :=
  let s1 := { s with
    timeout_ms := tm
    start_info := info
    last_feed_time := some now
    is_running := true
    is_timeout_occurred := false }
  (true, s1, [WMessage.autoStarted tm info now])

/-- `Watchdog._internal_stop` (lines 125-138). -/
def internal_stop (s : WatchdogState) (now : Int) (info : String) :
    Bool × WatchdogState × List WMessage :=
  (true, { s with is_running := false }, [WMessage.autoStopped info now])

/-- `Watchdog._update_timeout` (lines 140-154). -/
def update_timeout (s : WatchdogState) (now : Int) (tm : Int) (info : String) :
    Bool × WatchdogState × List WMessage :=
  (true, { s with timeout_ms := tm }, [WMessage.timeoutUpdated s.timeout_ms tm info now])

/-- `Watchdog.feed` (lines 156-179).  `tm = none` models python `timeout_ms=None`. -/
def feed (s : WatchdogState) (now : Int) (tm : Option Int) (info : String) :
    Bool × WatchdogState × List WMessage :=
  if s.is_running = false then
    internal_start s now (tm.getD 30000) info
  else
    let s1 := { s with
      last_feed_time := some now
      is_timeout_occurred := false }
    match tm with
    | some t =>
      let r := update_timeout s1 now t info
      (true, r.2.1, r.2.2)
    | none => (true, s1, [])

/-- `Watchdog.poll` (lines 181-204). -/
def poll (s : WatchdogState) (now : Int) : Bool × WatchdogState :=
  if s.is_running = false then (false, s)
  else
    match s.last_feed_time with
    | none => (true, s)
    | some lf =>
      let elapsed_ms := now - lf
      if elapsed_ms > s.timeout_ms ∧ s.is_timeout_occurred = false then
        (true, { s with is_timeout_occurred := true })
      else (false, s)

/-- `Watchdog.notify` (lines 206-226).  The router collaborator is the boolean
oracle `router`; `elapsed = none` models python `float('inf')` when
`_last_feed_time` is `None`. -/
def notify (s : WatchdogState) (now : Int) (router : WMessage → Bool) :
    Bool × WatchdogState × List WMessage :=
  if s.is_running = false then (false, s, [])
  else
    let elapsed_ms : Option Int := s.last_feed_time.map (fun lf => now - lf)
    let msg := WMessage.timeoutAlert s.start_info s.timeout_ms elapsed_ms s.last_feed_time now
    let sent := router msg
    let r := internal_stop s now "Timeout occurred"
    (sent, r.2.1, msg :: r.2.2)

/-- `Watchdog.manual_stop` (lines 228-238). -/
def manual_stop (s : WatchdogState) (now : Int) (info : String) :
    Bool × WatchdogState × List WMessage :=
  if s.is_running = false then (false, s, [])
  else
    let r := internal_stop s now ("Manual stop - " ++ info)
    (true, r.2.1, r.2.2)

/-- States of a `Watchdog` instance reachable from construction by any
sequence of the four public operations at arbitrary times and arguments. -/
inductive Reachable : WatchdogState → Prop where
  | init : Reachable initState
  | step_feed (s : WatchdogState) (now : Int) (tm : Option Int) (info : String) :
      Reachable s → Reachable (feed s now tm info).2.1
  | step_poll (s : WatchdogState) (now : Int) :
      Reachable s → Reachable (poll s now).2
  | step_notify (s : WatchdogState) (now : Int) (router : WMessage → Bool) :
      Reachable s → Reachable (notify s now router).2.1
  | step_manual_stop (s : WatchdogState) (now : Int) (info : String) :
      Reachable s → Reachable (manual_stop s now info).2.1

/-- Concrete send oracle (for witnesses): telegram succeeds, every other
platform returns failure. -/
def c4wSend (p : String) : SendResult :=
  if p = "telegram" then Except.ok true else Except.ok false

/-- Concrete send oracle (for witnesses): wechat raises an exception, every
other platform succeeds. -/
def c5wSend (p : String) : SendResult :=
  if p = "wechat" then Except.error "boom" else Except.ok true

/-- Every `feed` leaves the watchdog running, with `last_feed_time` set to the
call time and the timeout latch cleared (both the arming and the running
branch of the source do so). -/
lemma feed_fields (s : WatchdogState) (now : Int) (tm : Option Int) (info : String) :
    ((feed s now tm info).2.1).is_running = true
    ∧ ((feed s now tm info).2.1).last_feed_time = some now
    ∧ ((feed s now tm info).2.1).is_timeout_occurred = false := by
  unfold feed internal_start update_timeout
  by_cases h : s.is_running = false
  · simp [h]
  · simp only [Bool.not_eq_false] at h
    simp [h]
    cases tm <;> simp

/-- A running, fed watchdog whose elapsed time exceeds the threshold and whose
latch is clear: `poll` returns `true` and sets the latch. -/
lemma poll_triggers (s : WatchdogState) (now lf : Int)
    (hr : s.is_running = true) (hlf : s.last_feed_time = some lf)
    (ho : s.is_timeout_occurred = false) (ht : now - lf > s.timeout_ms) :
    poll s now = (true, { s with is_timeout_occurred := true }) := by
  unfold poll
  simp [hr, hlf, ho, ht]

/-- Once the latch is set, `poll` on a running, fed watchdog returns `false`
and changes nothing. -/
lemma poll_latched (s : WatchdogState) (now lf : Int)
    (hr : s.is_running = true) (hlf : s.last_feed_time = some lf)
    (ho : s.is_timeout_occurred = true) :
    poll s now = (false, s) := by
  unfold poll
  simp [hr, hlf, ho]

/-- Whatever branch `poll` takes, it touches neither `is_running` nor
`last_feed_time`. -/
lemma poll_preserves (s : WatchdogState) (now : Int) :
    ((poll s now).2).is_running = s.is_running
    ∧ ((poll s now).2).last_feed_time = s.last_feed_time := by
  unfold poll
  by_cases h : s.is_running = false
  · simp [h]
  · simp only [Bool.not_eq_false] at h
    cases hlf : s.last_feed_time
    · simp [h, hlf]
    · simp [h, hlf]
      split <;> simp [h, hlf]

/-- C1: counterexample.  Feed at time 0 (arming with the default 30000 ms
threshold), poll at time 30001 (signalling the timeout and setting the latch),
then `notify`: the resulting state is reachable, is Idle
(`is_running = false`), yet `is_timeout_occurred` is still `true` —
`_internal_stop` does not reset the timeout-signaled flag, so the claimed
invariant fails. -/
theorem c1_counterexample :
    ((notify (poll (feed initState 0 none "").2.1 30001).2 30001
        (fun _ => false)).2.1).is_running = false
    ∧ ((notify (poll (feed initState 0 none "").2.1 30001).2 30001
        (fun _ => false)).2.1).is_timeout_occurred = true
    ∧ Reachable (notify (poll (feed initState 0 none "").2.1 30001).2 30001
        (fun _ => false)).2.1 := by
  refine ⟨by decide, by decide, ?_⟩
  exact Reachable.step_notify _ 30001 (fun _ => false)
    (Reachable.step_poll _ 30001 (Reachable.step_feed _ 0 none "" Reachable.init))

/-- C1 (amended): the operations that transition the watchdog to Idle
(`notify`'s auto-stop and `manual_stop`) leave `is_timeout_occurred` unchanged
rather than resetting it, so `running = false` with the flag still set is
reachable; the flag is instead cleared by every `feed` (both arming and while
running), and while Idle the stale flag is inert because `poll` returns
`false`. -/
theorem c1_amended_flag_reset_on_feed (s : WatchdogState) (now now2 : Int)
    (tm : Option Int) (info info2 : String) (router : WMessage → Bool) :
    ((feed s now tm info).2.1).is_timeout_occurred = false
    ∧ ((notify s now router).2.1).is_timeout_occurred = s.is_timeout_occurred
    ∧ ((manual_stop s now info2).2.1).is_timeout_occurred = s.is_timeout_occurred
    ∧ (s.is_running = false → (poll s now2).1 = false) := by
  refine ⟨(feed_fields s now tm info).2.2, ?_, ?_, ?_⟩
  · unfold notify internal_stop
    by_cases h : s.is_running = false <;> simp [h]
  · unfold manual_stop internal_stop
    by_cases h : s.is_running = false <;> simp [h]
  · intro h
    unfold poll
    simp [h]

/-- C1 witness: the amended statement at concrete inputs. -/
theorem c1_amended_witness :
    ((feed initState 5 none "").2.1).is_timeout_occurred = false
    ∧ (poll initState 7).1 = false := by
  have h := c1_amended_flag_reset_on_feed initState 5 7 none "" "" (fun _ => true)
  exact ⟨h.1, h.2.2.2 rfl⟩

/-- C2: after a feed at time `t0`, if the elapsed time at `now` exceeds the
current threshold and the latch is clear (as every feed leaves it), the first
`poll` returns `true` and sets the latch; every subsequent `poll`, at any
time and before any further feed or stop, returns `false` and leaves the
state unchanged — so the alert is signalled exactly once per episode. -/
theorem c2_first_poll_true_then_false (s : WatchdogState) (t0 : Int)
    (tm : Option Int) (info : String) (now : Int)
    (ht : now - t0 > ((feed s t0 tm info).2.1).timeout_ms) :
    (poll (feed s t0 tm info).2.1 now).1 = true
    ∧ ((poll (feed s t0 tm info).2.1 now).2).is_timeout_occurred = true
    ∧ ∀ now2 : Int,
        (poll (poll (feed s t0 tm info).2.1 now).2 now2).1 = false
        ∧ (poll (poll (feed s t0 tm info).2.1 now).2 now2).2
            = (poll (feed s t0 tm info).2.1 now).2 := by
  obtain ⟨hr, hlf, ho⟩ := feed_fields s t0 tm info
  have hp := poll_triggers _ now t0 hr hlf ho ht
  rw [hp]
  refine ⟨rfl, rfl, fun now2 => ?_⟩
  have hl := poll_latched { (feed s t0 tm info).2.1 with is_timeout_occurred := true }
    now2 t0 (by simpa using hr) (by simpa using hlf) rfl
  rw [hl]
  exact ⟨rfl, rfl⟩

/-- C2 witness: default threshold 30000 ms, feed at 0, polls at 30001 and
30002. -/
theorem c2_witness :
    (poll (feed initState 0 none "").2.1 30001).1 = true
    ∧ (poll (poll (feed initState 0 none "").2.1 30001).2 30002).1 = false := by
  have h := c2_first_poll_true_then_false initState 0 none "" 30001 (by decide)
  exact ⟨h.1, (h.2.2 30002).1⟩

/-- C3: on a running watchdog `notify` always transitions to Idle, whatever
boolean the router returns, and its return value is exactly the router's
boolean for the timeout-alert dispatch; on an Idle watchdog it returns
`false` with no state change and no dispatch. -/
theorem c3_notify_auto_stop (s : WatchdogState) (now : Int)
    (router : WMessage → Bool) :
    (s.is_running = true →
      (notify s now router).2.1 = { s with is_running := false }
      ∧ (notify s now router).1
          = router (WMessage.timeoutAlert s.start_info s.timeout_ms
              (s.last_feed_time.map (fun lf => now - lf)) s.last_feed_time now))
    ∧ (s.is_running = false → notify s now router = (false, s, [])) := by
  constructor <;> intro h <;> unfold notify internal_stop <;> simp [h]

/-- C3 witness: `notify` at concrete running and Idle states. -/
theorem c3_witness :
    (notify (feed initState 0 none "").2.1 50 (fun _ => false)).2.1
      = { (feed initState 0 none "").2.1 with is_running := false }
    ∧ notify initState 50 (fun _ => false) = (false, initState, []) := by
  have h1 := c3_notify_auto_stop (feed initState 0 none "").2.1 50 (fun _ => false)
  have h2 := c3_notify_auto_stop initState 50 (fun _ => false)
  exact ⟨(h1.1 (by decide)).1, h2.2 rfl⟩

/-- C6: `feed` with an explicit timeout `X` on a running watchdog sets the
threshold to `X`, resets `last_feed_time` to the call time, clears the latch,
dispatches the timeout-updated message (with the old and new thresholds) and
returns `true`. -/
theorem c6_feed_updates_timeout (s : WatchdogState) (now X : Int) (info : String)
    (h : s.is_running = true) :
    feed s now (some X) info
      = (true,
         { s with
             timeout_ms := X
             last_feed_time := some now
             is_timeout_occurred := false },
         [WMessage.timeoutUpdated s.timeout_ms X info now]) := by
  unfold feed update_timeout
  simp [h]

/-- C6 witness: update the threshold to 5000 ms on a freshly armed watchdog. -/
theorem c6_witness :
    feed (feed initState 0 none "").2.1 10 (some 5000) "x"
      = (true,
         { is_running := true
           is_timeout_occurred := false
           timeout_ms := 5000
           last_feed_time := some 10
           start_info := "" },
         [WMessage.timeoutUpdated 30000 5000 "x" 10]) := by
  have h := c6_feed_updates_timeout (feed initState 0 none "").2.1 10 5000 "x" (by decide)
  simpa using h

/-- C7: `feed` with no timeout argument on an Idle watchdog arms it with the
default 30000 ms threshold: afterwards it is running, the latch is clear,
`last_feed_time` is the call time, the auto-started message is dispatched and
the call returns `true`. -/
theorem c7_feed_arms_idle (s : WatchdogState) (now : Int) (info : String)
    (h : s.is_running = false) :
    feed s now none info
      = (true,
         { is_running := true
           is_timeout_occurred := false
           timeout_ms := 30000
           last_feed_time := some now
           start_info := info },
         [WMessage.autoStarted 30000 info now]) := by
  unfold feed internal_start
  simp [h]

/-- C7 witness: arming the freshly constructed watchdog. -/
theorem c7_witness :
    feed initState 3 none "job"
      = (true,
         { is_running := true
           is_timeout_occurred := false
           timeout_ms := 30000
           last_feed_time := some 3
           start_info := "job" },
         [WMessage.autoStarted 30000 "job" 3]) :=
  c7_feed_arms_idle initState 3 "job" rfl

/-- C8: `manual_stop` on an Idle watchdog returns `false` with every state
field unchanged and no message dispatched; on a running watchdog it returns
`true` (independently of any notification outcome: no router result enters
the computation), clears `is_running` and dispatches the stopped message with
the given reason. -/
theorem c8_manual_stop_cases (s : WatchdogState) (now : Int) (info : String) :
    (s.is_running = false → manual_stop s now info = (false, s, []))
    ∧ (s.is_running = true →
        (manual_stop s now info).1 = true
        ∧ (manual_stop s now info).2.1 = { s with is_running := false }
        ∧ (manual_stop s now info).2.2
            = [WMessage.autoStopped ("Manual stop - " ++ info) now]) := by
  constructor <;> intro h <;> unfold manual_stop internal_stop <;> simp [h]

/-- C8 witness: `manual_stop` on the Idle initial state and on a running
state. -/
theorem c8_witness :
    manual_stop initState 9 "why" = (false, initState, [])
    ∧ (manual_stop (feed initState 0 none "").2.1 9 "why").1 = true := by
  have h1 := c8_manual_stop_cases initState 9 "why"
  have h2 := c8_manual_stop_cases (feed initState 0 none "").2.1 9 "why"
  exact ⟨h1.1 rfl, (h2.2 (by decide)).1⟩

/-- C9: on every reachable state, a running watchdog has a non-null
`last_feed_time`; hence the `poll` branch that returns `true` on a null
`last_feed_time` while running can never be taken. -/
theorem c9_running_has_last_feed (s : WatchdogState) (h : Reachable s) :
    s.is_running = true → s.last_feed_time ≠ none := by
  induction h with
  | init =>
      intro hr
      simp [initState] at hr
  | step_feed s now tm info hs ih =>
      intro _
      simp [(feed_fields s now tm info).2.1]
  | step_poll s now hs ih =>
      intro hr
      have hp := poll_preserves s now
      rw [hp.2]
      exact ih (by rw [← hp.1]; exact hr)
  | step_notify s now router hs ih =>
      by_cases h1 : s.is_running = false
      · unfold notify
        simp [h1]
      · unfold notify internal_stop
        simp [h1]
  | step_manual_stop s now info hs ih =>
      by_cases h1 : s.is_running = false
      · unfold manual_stop
        simp [h1]
      · unfold manual_stop internal_stop
        simp [h1]

/-- C9 witness: the invariant at a concrete reachable running state. -/
theorem c9_witness : ((feed initState 0 none "").2.1).last_feed_time ≠ none :=
  c9_running_has_last_feed _
    (Reachable.step_feed initState 0 none "" Reachable.init) (by decide)

/-- C10: `notify` on a running watchdog hands exactly two messages to the
router, first the timeout alert and then (via the auto-stop) the stopped
message with reason "Timeout occurred"; the returned boolean is the router's
answer for the first message only — the second dispatch's outcome does not
enter the result. -/
theorem c10_notify_two_dispatches (s : WatchdogState) (now : Int)
    (router : WMessage → Bool) (h : s.is_running = true) :
    notify s now router
      = (router (WMessage.timeoutAlert s.start_info s.timeout_ms
            (s.last_feed_time.map (fun lf => now - lf)) s.last_feed_time now),
         { s with is_running := false },
         [WMessage.timeoutAlert s.start_info s.timeout_ms
            (s.last_feed_time.map (fun lf => now - lf)) s.last_feed_time now,
          WMessage.autoStopped "Timeout occurred" now]) := by
  unfold notify internal_stop
  simp [h]

/-- C10 witness: the two dispatched messages and the returned boolean at a
concrete running state, under a router that accepts every message. -/
theorem c10_witness :
    notify (feed initState 0 none "").2.1 40 (fun _ => true)
      = (true,
         { is_running := false
           is_timeout_occurred := false
           timeout_ms := 30000
           last_feed_time := some 0
           start_info := "" },
         [WMessage.timeoutAlert "" 30000 (some 40) (some 0) 40,
          WMessage.autoStopped "Timeout occurred" 40]) := by
  have h := c10_notify_two_dispatches (feed initState 0 none "").2.1 40
    (fun _ => true) (by decide)
  simpa using h

/-- Membership in the append-if-new fold: exactly the elements of the seed
and of the traversed list. -/
lemma foldl_addNew_mem (l : List String) (acc : List String) (x : String) :
    x ∈ l.foldl (fun acc p => if p ∈ acc then acc else acc ++ [p]) acc
      ↔ x ∈ acc ∨ x ∈ l := by
  induction l generalizing acc with
  | nil => simp
  | cons p rest ih =>
      simp only [List.foldl_cons]
      by_cases hp : p ∈ acc
      · rw [if_pos hp, ih]
        constructor
        · rintro (h | h)
          · exact Or.inl h
          · exact Or.inr (List.mem_cons_of_mem _ h)
        · rintro (h | h)
          · exact Or.inl h
          · rcases List.mem_cons.mp h with h | h
            · exact Or.inl (h ▸ hp)
            · exact Or.inr h
      · rw [if_neg hp, ih]
        simp only [List.mem_append, List.mem_singleton, List.mem_cons]
        tauto

/-- The append-if-new fold preserves freedom from duplicates. -/
lemma foldl_addNew_nodup (l : List String) (acc : List String) (h : acc.Nodup) :
    (l.foldl (fun acc p => if p ∈ acc then acc else acc ++ [p]) acc).Nodup := by
  induction l generalizing acc with
  | nil => simpa
  | cons p rest ih =>
      simp only [List.foldl_cons]
      by_cases hp : p ∈ acc
      · rw [if_pos hp]
        exact ih acc h
      · rw [if_neg hp]
        refine ih _ ?_
        simp [List.nodup_append, h, hp]

/-- On a duplicate-free list the append-if-new fold is the seed followed by
the elements not already in the seed, in list order. -/
lemma foldl_addNew_eq (l : List String) (acc : List String) (hl : l.Nodup) :
    l.foldl (fun acc p => if p ∈ acc then acc else acc ++ [p]) acc
      = acc ++ l.filter (fun p => decide (p ∉ acc)) := by
  induction l generalizing acc with
  | nil => simp
  | cons p rest ih =>
      obtain ⟨hp_rest, hrest⟩ := List.nodup_cons.mp hl
      simp only [List.foldl_cons]
      by_cases hp : p ∈ acc
      · rw [if_pos hp, ih _ hrest]
        simp [List.filter_cons, hp]
      · rw [if_neg hp, ih _ hrest]
        have hcongr : rest.filter (fun q => decide (q ∉ acc ++ [p]))
            = rest.filter (fun q => decide (q ∉ acc)) := by
          apply List.filter_congr
          intro q hq
          have hqp : q ≠ p := fun e => hp_rest (e ▸ hq)
          simp [List.mem_append, hqp]
        rw [hcongr]
        simp [List.filter_cons, hp, List.append_assoc]

/-- The try order contains exactly the available platforms. -/
lemma buildTryOrder_mem (dflt : Option String) (available : List String)
    (x : String) :
    x ∈ buildTryOrder dflt available ↔ x ∈ available := by
  unfold buildTryOrder
  rw [foldl_addNew_mem]
  constructor
  · rintro (h | h)
    · cases dflt with
      | none => simp at h
      | some d =>
          by_cases hc : d ≠ "" ∧ d ∈ available
          · simp only [if_pos hc, List.mem_singleton] at h
            exact h ▸ hc.2
          · simp [if_neg hc] at h
    · exact h
  · exact Or.inr

/-- The try order never lists a platform twice. -/
lemma buildTryOrder_nodup (dflt : Option String) (available : List String) :
    (buildTryOrder dflt available).Nodup := by
  unfold buildTryOrder
  apply foldl_addNew_nodup
  cases dflt with
  | none => simp
  | some d =>
      show (if d ≠ "" ∧ d ∈ available then [d] else []).Nodup
      split <;> simp

/-- With no available platforms the try order is empty. -/
lemma buildTryOrder_nil (dflt : Option String) : buildTryOrder dflt [] = [] := by
  cases dflt with
  | none => simp [buildTryOrder]
  | some d => simp [buildTryOrder]

/-- A truthy default that is available comes first, followed by the remaining
available platforms in enumeration order. -/
lemma buildTryOrder_default (d : String) (available : List String)
    (hnd : available.Nodup) (hd1 : d ≠ "") (hd2 : d ∈ available) :
    buildTryOrder (some d) available
      = d :: available.filter (fun p => decide (p ≠ d)) := by
  show List.foldl (fun acc p => if p ∈ acc then acc else acc ++ [p])
    (if d ≠ "" ∧ d ∈ available then [d] else []) available = _
  rw [if_pos ⟨hd1, hd2⟩, foldl_addNew_eq _ _ hnd]
  simp only [List.singleton_append, List.cons.injEq, true_and]
  apply List.filter_congr
  intro q _
  simp

/-- With no default configured the try order is the availability order. -/
lemma buildTryOrder_none (available : List String) (hnd : available.Nodup) :
    buildTryOrder none available = available := by
  unfold buildTryOrder
  rw [foldl_addNew_eq _ _ hnd]
  simp

/-- When every platform in the list is recognized, has a notifier and does
not succeed, the loop attempts all of them and returns `false`. -/
lemma trySendLoop_all_fail (hasN : String → Bool) (send : String → SendResult)
    (l : List String)
    (hch : ∀ p ∈ l, (p = "telegram" ∨ p = "wechat") ∧ hasN p = true)
    (hfail : ∀ p ∈ l, send p ≠ Except.ok true) :
    trySendLoop hasN send l = Except.ok (false, l) := by
  induction l with
  | nil => rfl
  | cons p rest ih =>
      obtain ⟨hrec, hn⟩ := hch p (List.mem_cons_self p rest)
      have ihr := ih (fun q hq => hch q (List.mem_cons_of_mem _ hq))
        (fun q hq => hfail q (List.mem_cons_of_mem _ hq))
      have hpf := hfail p (List.mem_cons_self p rest)
      cases hsp : send p with
      | ok b =>
          cases b with
          | false =>
              rcases hrec with h | h <;> subst h <;>
                simp [trySendLoop, hn, hsp, ihr, prependAttempt]
          | true => exact absurd hsp hpf
      | error e =>
          rcases hrec with h | h <;> subst h <;>
            simp [trySendLoop, hn, hsp, ihr, prependAttempt]

/-- When every platform before `p` is recognized, has a notifier and does not
succeed, and `p` (recognized, with a notifier) succeeds, the loop attempts
exactly the prefix up to `p` and returns `true`. -/
lemma trySendLoop_first_success (hasN : String → Bool)
    (send : String → SendResult) (pre : List String) (p : String)
    (suf : List String)
    (hch : ∀ q ∈ pre ++ p :: suf, (q = "telegram" ∨ q = "wechat") ∧ hasN q = true)
    (hfail : ∀ q ∈ pre, send q ≠ Except.ok true)
    (hok : send p = Except.ok true) :
    trySendLoop hasN send (pre ++ p :: suf) = Except.ok (true, pre ++ [p]) := by
  induction pre with
  | nil =>
      obtain ⟨hrec, hn⟩ := hch p (by simp)
      rcases hrec with h | h <;> subst h <;> simp [trySendLoop, hn, hok]
  | cons q pre' ih =>
      obtain ⟨hrec, hn⟩ := hch q (by simp)
      have hqf := hfail q (List.mem_cons_self q pre')
      have ih' := ih (fun r hr => hch r (List.mem_cons_of_mem _ hr))
        (fun r hr => hfail r (List.mem_cons_of_mem _ hr))
      cases hsq : send q with
      | ok b =>
          cases b with
          | false =>
              rcases hrec with h | h <;> subst h <;>
                simp [trySendLoop, hn, hsq, ih', prependAttempt]
          | true => exact absurd hsq hqf
      | error e =>
          rcases hrec with h | h <;> subst h <;>
            simp [trySendLoop, hn, hsq, ih', prependAttempt]

/-- C4: for a dispatch over duplicate-free available channels, each
recognized and backed by a notifier: the try order is duplicate-free (each
channel at most once) and consists exactly of the available channels, with a
truthy enabled default first and the others in enumeration order (the
availability order itself when no default is set); with no channel available
the dispatch attempts nothing and returns `false`; if the channels strictly
before some position all fail and the channel at that position succeeds, the
dispatch attempts exactly the channels up to and including it and returns
`true`; and if every channel in the try order fails, all are attempted and
the dispatch returns `false`. -/
theorem c4_router_order_first_success (dflt : Option String)
    (available : List String) (hasN : String → Bool)
    (send : String → SendResult) (hnd : available.Nodup)
    (hch : ∀ p ∈ available, (p = "telegram" ∨ p = "wechat") ∧ hasN p = true) :
    (buildTryOrder dflt available).Nodup
    ∧ (∀ x, x ∈ buildTryOrder dflt available ↔ x ∈ available)
    ∧ (∀ d, dflt = some d → d ≠ "" → d ∈ available →
        buildTryOrder dflt available
          = d :: available.filter (fun p => decide (p ≠ d)))
    ∧ (dflt = none → buildTryOrder dflt available = available)
    ∧ (available = [] →
        send_notification dflt available hasN send = Except.ok (false, []))
    ∧ (∀ pre p suf, buildTryOrder dflt available = pre ++ p :: suf →
        (∀ q ∈ pre, send q ≠ Except.ok true) → send p = Except.ok true →
        send_notification dflt available hasN send
          = Except.ok (true, pre ++ [p]))
    ∧ ((∀ q ∈ buildTryOrder dflt available, send q ≠ Except.ok true) →
        send_notification dflt available hasN send
          = Except.ok (false, buildTryOrder dflt available)) := by
  have hmem := buildTryOrder_mem dflt available
  refine ⟨buildTryOrder_nodup dflt available, hmem, ?_, ?_, ?_, ?_, ?_⟩
  · intro d hd h1 h2
    subst hd
    exact buildTryOrder_default d available hnd h1 h2
  · intro hd
    subst hd
    exact buildTryOrder_none available hnd
  · intro he
    subst he
    simp [send_notification]
  · intro pre p suf hsplit hfail hok
    have hne : available ≠ [] := by
      intro he
      subst he
      rw [buildTryOrder_nil] at hsplit
      cases pre <;> simp at hsplit
    unfold send_notification
    rw [if_neg hne, hsplit]
    exact trySendLoop_first_success hasN send pre p suf
      (fun q hq => hch q ((hmem q).mp (hsplit ▸ hq))) hfail hok
  · intro hfail
    by_cases he : available = []
    · subst he
      simp [send_notification, buildTryOrder_nil]
    · unfold send_notification
      rw [if_neg he]
      exact trySendLoop_all_fail hasN send _
        (fun q hq => hch q ((hmem q).mp hq)) hfail

/-- C4 witness: default wechat, available telegram then wechat, wechat fails
and telegram succeeds — try order is wechat first, both are attempted, the
dispatch returns `true`. -/
theorem c4_witness :
    send_notification (some "wechat") ["telegram", "wechat"] (fun _ => true)
      c4wSend = Except.ok (true, ["wechat", "telegram"]) := by
  have h := c4_router_order_first_success (some "wechat")
    ["telegram", "wechat"] (fun _ => true) c4wSend (by decide)
    (by intro p hp; constructor
        · rcases List.mem_cons.mp hp with h1 | h1
          · exact Or.inl h1
          · exact Or.inr (by simpa using h1)
        · rfl)
  refine h.2.2.2.2.2.1 ["wechat"] "telegram" [] ?_ ?_ ?_
  · simp [buildTryOrder, c4wSend]
  · intro q hq
    simp only [List.mem_singleton] at hq
    subst hq
    simp [c4wSend]
  · simp [c4wSend]

/-- C5: a channel send attempt that raises is caught inside the dispatch
loop — the overall dispatch always returns a boolean result (never an
exception), and after a recognized, notifier-backed channel faults the loop
continues with the remaining channels, whose outcome becomes the overall
outcome. -/
theorem c5_fault_caught (hasN : String → Bool) (send : String → SendResult) :
    (∀ dflt available, ∃ r,
        send_notification dflt available hasN send = Except.ok r)
    ∧ (∀ p rest e b attempted,
        (p = "telegram" ∨ p = "wechat") → hasN p = true →
        send p = Except.error e →
        trySendLoop hasN send rest = Except.ok (b, attempted) →
        trySendLoop hasN send (p :: rest) = Except.ok (b, p :: attempted)) := by
  have hloop : ∀ l, ∃ r, trySendLoop hasN send l = Except.ok r := by
    intro l
    induction l with
    | nil => exact ⟨(false, []), rfl⟩
    | cons p rest ih =>
        obtain ⟨⟨b0, as0⟩, hr⟩ := ih
        by_cases h1 : p = "telegram"
        · subst h1
          by_cases hn : hasN "telegram"
          · cases hsp : send "telegram" with
            | ok b =>
                cases b with
                | false =>
                    exact ⟨(b0, "telegram" :: as0),
                      by simp [trySendLoop, hn, hsp, hr, prependAttempt]⟩
                | true =>
                    exact ⟨(true, ["telegram"]), by simp [trySendLoop, hn, hsp]⟩
            | error e =>
                exact ⟨(b0, "telegram" :: as0),
                  by simp [trySendLoop, hn, hsp, hr, prependAttempt]⟩
          · exact ⟨(b0, as0), by simp [trySendLoop, hn, hr]⟩
        · by_cases h2 : p = "wechat"
          · subst h2
            by_cases hn : hasN "wechat"
            · cases hsp : send "wechat" with
              | ok b =>
                  cases b with
                  | false =>
                      exact ⟨(b0, "wechat" :: as0),
                        by simp [trySendLoop, h1, hn, hsp, hr, prependAttempt]⟩
                  | true =>
                      exact ⟨(true, ["wechat"]),
                        by simp [trySendLoop, h1, hn, hsp]⟩
              | error e =>
                  exact ⟨(b0, "wechat" :: as0),
                    by simp [trySendLoop, h1, hn, hsp, hr, prependAttempt]⟩
            · exact ⟨(b0, as0), by simp [trySendLoop, h1, hn, hr]⟩
          · exact ⟨(b0, as0), by simp [trySendLoop, h1, h2, hr]⟩
  constructor
  · intro dflt available
    by_cases hav : available = []
    · exact ⟨(false, []), by simp [send_notification, hav]⟩
    · obtain ⟨r, hr⟩ := hloop (buildTryOrder dflt available)
      exact ⟨r, by simp [send_notification, hav, hr]⟩
  · intro p rest e b attempted hrec hn he hrest
    rcases hrec with h | h <;> subst h <;>
      simp [trySendLoop, hn, he, hrest, prependAttempt]

/-- C5 witness: wechat raises, the loop catches the fault and continues with
telegram, which succeeds — the dispatch returns `true` with both channels
attempted and no exception escapes. -/
theorem c5_witness :
    trySendLoop (fun _ => true) c5wSend ["wechat", "telegram"]
      = Except.ok (true, ["wechat", "telegram"]) := by
  have h := c5_fault_caught (fun _ => true) c5wSend
  exact h.2 "wechat" ["telegram"] "boom" true ["telegram"] (Or.inr rfl) rfl
    (by simp [c5wSend]) (by simp [trySendLoop, c5wSend])

end MaaGF1
